import Mathlib

/-!
Verification of the Narrative Tracking and Scoring Engine of the
`dym` repository (Solana Narrative Scanner).

The repository ships the database schema (`ops/db/init.sql`), the
dashboard page (`dashboard/src/app/page.tsx`) and design documents; the
engine components themselves (Mention Normalizer, Cluster Engine,
Window Aggregator, Scoring Engine, Alert Evaluator) are specified but
their code is not present in the repository. Those components are
therefore modelled here from the specification text, while the
dashboard rendering logic is embedded from `page.tsx` directly.

Vectors are embeddings of dimension 384 in the schema; we model them as
lists of rationals, with the dimension kept abstract.
-/

namespace Dym

/-- Embedding vectors (schema column `VECTOR(384)`), modelled as lists
of rationals. -/
abbrev Vec := List ℚ

/-- Dot product of two vectors. -/
def dot (a b : Vec) : ℚ := (List.zipWith (· * ·) a b).sum

/-- Squared Euclidean norm. -/
def normSq (a : Vec) : ℚ := dot a a

/-- Pointwise vector addition. -/
def vadd (a b : Vec) : Vec := List.zipWith (· + ·) a b

/-- Scalar multiplication. -/
def smul (c : ℚ) (a : Vec) : Vec := a.map (c * ·)

/-- Sum of a list of vectors of dimension `d`. -/
def vsum (d : Nat) (l : List Vec) : Vec := l.foldl vadd (List.replicate d 0)

/-- Mean of a batch of vectors of dimension `d`. -/
def vmean (d : Nat) (l : List Vec) : Vec := smul (1 / (l.length : ℚ)) (vsum d l)

/-- Modelled from the spec: the exponentially-weighted running-mean
centroid update of the Cluster Engine,
`new_centroid = alpha * observation + (1 - alpha) * old_centroid`. -/
def ewmaStep (alpha : ℚ) (obs old : Vec) : Vec :=
  vadd (smul alpha obs) (smul (1 - alpha) old)

/-- An enriched mention as consumed by the Cluster Engine: the row of
`mention_enriched` joined with its `mention` row, reduced to the fields
the clustering algorithm reads. -/
structure EnrichedMention where
  id : Nat
  author : String
  embedding : Vec
deriving DecidableEq, Repr

/-- A narrative row (`narrative` table of `init.sql`). -/
structure Narrative where
  id : Nat
  label : String
  created_at : ℚ
  last_seen : ℚ
  centroid : Vec
  keywords : List String
  category : String
deriving DecidableEq, Repr

/-- Configuration of the Cluster Engine: merge threshold tau,
EWMA coefficient alpha, embedding dimension, current cycle time and
the active-narrative lookback. -/
structure ClusterCfg where
  tau : ℚ
  alpha : ℚ
  dim : Nat
  now : ℚ
  lookback : ℚ
deriving DecidableEq, Repr

/-- Modelled from the spec: the cosine-similarity threshold test
`cos(a, b) > tau`, decided exactly over the rationals by comparing
`dot(a, b)^2` against `tau^2 * normSq a * normSq b` for a positive dot
product (valid for a nonnegative threshold). -/
def cosAbove (tau : ℚ) (a b : Vec) : Bool :=
  decide (0 < dot a b) && decide (tau ^ 2 * normSq a * normSq b < dot a b ^ 2)

/-- Modelled from the spec: `cos(a, c) > cos(a, b)`, decided exactly
over the rationals by cross-multiplying the squared norms with
sign-aware squaring of the dot products. -/
def simBetter (a b c : Vec) : Bool :=
  decide (dot a b * |dot a b| * normSq c < dot a c * |dot a c| * normSq b)

/-- A narrative is active when its `last_seen` time lies within the
configured lookback of the current cycle time. -/
def isActive (cfg : ClusterCfg) (n : Narrative) : Bool :=
  decide (cfg.now - n.last_seen ≤ cfg.lookback)

/-- Modelled from the spec (Cluster Engine, not present in the
repository): the best-matching active narrative of a mention
embedding, returned when its cosine similarity exceeds the merge
threshold tau. -/
def bestMatch (cfg : ClusterCfg) (narrs : List Narrative) (e : Vec) : Option Nat :=
  let best := (narrs.filter (isActive cfg)).foldl
    (fun acc n =>
      match acc with
      | none => some n
      | some b => if simBetter e b.centroid n.centroid then some n else some b)
    none
  match best with
  | some b => if cosAbove cfg.tau e b.centroid then some b.id else none
  | none => none

/-- The embeddings of the mentions of the current cycle that the
Cluster Engine assigns to the narrative with id `nid`. -/
def assignedBatch (cfg : ClusterCfg) (narrs : List Narrative)
    (mentions : List EnrichedMention) (nid : Nat) : List Vec :=
  (mentions.filter (fun m => bestMatch cfg narrs m.embedding == some nid)).map
    (fun m => m.embedding)

/-- Modelled from the spec (Concurrency and Resource Model): all
mentions assigned to a narrative within a cycle are batched and one
combined centroid update is applied, the EWMA of the old centroid with
the mean embedding of the batch; a narrative with no new mentions is
untouched. -/
def updateNarrative (cfg : ClusterCfg) (narrs : List Narrative)
    (mentions : List EnrichedMention) (n : Narrative) : Narrative :=
  let batch := assignedBatch cfg narrs mentions n.id
  if batch.isEmpty then n
  else { n with
          centroid := ewmaStep cfg.alpha (vmean cfg.dim batch) n.centroid,
          last_seen := cfg.now }

/-- Modelled from the spec: one clustering cycle over the existing
narratives (new-narrative creation from the unassigned pool touches no
existing centroid and is outside the scope of the centroid claims). -/
def runClusterCycle (cfg : ClusterCfg) (narrs : List Narrative)
    (mentions : List EnrichedMention) : List Narrative :=
  narrs.map (updateNarrative cfg narrs mentions)

/-- C1. For every processing cycle and narrative X assigned at least
one new mention, the post-cycle centroid of X is the
exponentially-weighted running mean of the pre-cycle centroid and the
mean embedding of the newly assigned batch,
`new_centroid = alpha * batch_mean + (1 - alpha) * old_centroid`. -/
theorem c1_centroid_ewma (cfg : ClusterCfg) (narrs : List Narrative)
    (mentions : List EnrichedMention) (n : Narrative)
    (hn : n ∈ narrs)
    (hb : assignedBatch cfg narrs mentions n.id ≠ []) :
    ∃ n2 ∈ runClusterCycle cfg narrs mentions,
      n2.id = n.id ∧
      n2.centroid =
        ewmaStep cfg.alpha (vmean cfg.dim (assignedBatch cfg narrs mentions n.id))
          n.centroid := by
  refine ⟨updateNarrative cfg narrs mentions n, List.mem_map_of_mem _ hn, ?_, ?_⟩
  · unfold updateNarrative
    simp only [List.isEmpty_iff]
    rw [if_neg hb]
  · unfold updateNarrative
    simp only [List.isEmpty_iff]
    rw [if_neg hb]

/-- Concrete cycle data used as witnesses: one active narrative with
centroid `[1, 0]` and one mention with an identical embedding, merge
threshold 3/4 and alpha 1/2. -/
def egCfg : ClusterCfg := { tau := 3/4, alpha := 1/2, dim := 2, now := 10, lookback := 7 }

def egNarr : Narrative :=
  { id := 1, label := "eg", created_at := 0, last_seen := 9,
    centroid := [1, 0], keywords := [], category := "crypto" }

def egMention : EnrichedMention := { id := 100, author := "a", embedding := [1, 0] }

theorem c1_centroid_ewma_witness :
    ∃ n2 ∈ runClusterCycle egCfg [egNarr] [egMention],
      n2.id = egNarr.id ∧
      n2.centroid =
        ewmaStep egCfg.alpha
          (vmean egCfg.dim (assignedBatch egCfg [egNarr] [egMention] egNarr.id))
          egNarr.centroid :=
  c1_centroid_ewma egCfg [egNarr] [egMention] egNarr (by simp)
    (by norm_num [assignedBatch, bestMatch, cosAbove, isActive, dot, normSq,
          egCfg, egNarr, egMention])

/-! ### Alert Evaluator -/

/-- Modelled from the spec: the per-narrative state of the Alert
Evaluator state machine — `quiet`, `armed` (with the number of windows
the condition has already persisted past the arming window) or `fired`
(with the remaining cooldown windows). -/
inductive AlertState where
  | quiet : AlertState
  | armed : Nat → AlertState
  | fired : Nat → AlertState
deriving DecidableEq, Repr

/-- Alert Evaluator configuration: arming threshold, lower disarm
(de-bounce) threshold, dwell time and cooldown, in windows. -/
structure AlertCfg where
  armThreshold : ℚ
  disarmThreshold : ℚ
  dwell : Nat
  cooldown : Nat
deriving DecidableEq, Repr

/-- Modelled from the spec (Alert Evaluator, not present in the
repository): one step of the state machine on the VS value of one
window, returning the next state and whether an Alert is emitted.
Any state reverts to `quiet` when the metric falls below the disarm
threshold; `quiet` arms when the metric crosses above the arm
threshold; `armed` fires once the condition has persisted for the
dwell time; `fired` returns to `quiet` after the cooldown elapses
regardless of the metric. -/
def stepAlert (cfg : AlertCfg) (st : AlertState) (vs : ℚ) : AlertState × Bool :=
  if vs < cfg.disarmThreshold then (.quiet, false)
  else
    match st with
    | .quiet => if cfg.armThreshold < vs then (.armed 0, false) else (.quiet, false)
    | .armed k =>
        if cfg.armThreshold < vs then
          if cfg.dwell ≤ k + 1 then (.fired cfg.cooldown, true)
          else (.armed (k + 1), false)
        else (.armed 0, false)
    | .fired c => if c ≤ 1 then (.quiet, false) else (.fired (c - 1), false)

/-- The per-window alert flags produced by running the evaluator over
a sequence of VS values. -/
def runFlags (cfg : AlertCfg) (st : AlertState) : List ℚ → List Bool
  | [] => []
  | v :: vs => (stepAlert cfg st v).2 :: runFlags cfg (stepAlert cfg st v).1 vs

/-- The state of the evaluator after consuming a sequence of VS
values. -/
def runEnd (cfg : AlertCfg) (st : AlertState) (l : List ℚ) : AlertState :=
  l.foldl (fun s v => (stepAlert cfg s v).1) st

theorem runFlags_cons (cfg : AlertCfg) (st : AlertState) (v : ℚ) (vs : List ℚ) :
    runFlags cfg st (v :: vs) =
      (stepAlert cfg st v).2 :: runFlags cfg (stepAlert cfg st v).1 vs := rfl

theorem runEnd_cons (cfg : AlertCfg) (st : AlertState) (v : ℚ) (l : List ℚ) :
    runEnd cfg st (v :: l) = runEnd cfg (stepAlert cfg st v).1 l := rfl

theorem runEnd_append (cfg : AlertCfg) (st : AlertState) (l₁ l₂ : List ℚ) :
    runEnd cfg st (l₁ ++ l₂) = runEnd cfg (runEnd cfg st l₁) l₂ := by
  simp [runEnd, List.foldl_append]

theorem runFlags_append (cfg : AlertCfg) (st : AlertState) (l₁ l₂ : List ℚ) :
    runFlags cfg st (l₁ ++ l₂) =
      runFlags cfg st l₁ ++ runFlags cfg (runEnd cfg st l₁) l₂ := by
  induction l₁ generalizing st with
  | nil => simp [runFlags, runEnd]
  | cons v vs ih => simp [runFlags, runEnd, ih, List.foldl_cons]

theorem stepAlert_low (cfg : AlertCfg) (st : AlertState) (v : ℚ)
    (h : v < cfg.disarmThreshold) : stepAlert cfg st v = (.quiet, false) := by
  unfold stepAlert
  rw [if_pos h]

theorem runFlags_low (cfg : AlertCfg) (st : AlertState) (l : List ℚ)
    (h : ∀ v ∈ l, v < cfg.disarmThreshold) :
    runFlags cfg st l = List.replicate l.length false := by
  induction l generalizing st with
  | nil => simp [runFlags]
  | cons v vs ih =>
      have hv := stepAlert_low cfg st v (h v (by simp))
      simp [runFlags, hv, ih _ (fun w hw => h w (by simp [hw])),
        List.replicate_succ]

theorem runEnd_quiet_low (cfg : AlertCfg) (l : List ℚ)
    (h : ∀ v ∈ l, v < cfg.disarmThreshold) :
    runEnd cfg .quiet l = .quiet := by
  induction l with
  | nil => rfl
  | cons v vs ih =>
      have hv := stepAlert_low cfg .quiet v (h v (by simp))
      simp [runEnd, List.foldl_cons, hv]
      exact ih (fun w hw => h w (by simp [hw]))

theorem stepAlert_armed_high (cfg : AlertCfg) (k : Nat) (v : ℚ)
    (hd : cfg.disarmThreshold ≤ cfg.armThreshold) (hv : cfg.armThreshold < v) :
    stepAlert cfg (.armed k) v =
      if cfg.dwell ≤ k + 1 then (.fired cfg.cooldown, true)
      else (.armed (k + 1), false) := by
  unfold stepAlert
  rw [if_neg (by exact not_lt.mpr (le_of_lt (lt_of_le_of_lt hd hv)))]
  simp [hv]

theorem runFlags_armed (cfg : AlertCfg) (l : List ℚ) (k : Nat)
    (hd : cfg.disarmThreshold ≤ cfg.armThreshold)
    (hh : ∀ v ∈ l, cfg.armThreshold < v)
    (hlen : l.length + k = cfg.dwell) (hne : l ≠ []) :
    runFlags cfg (.armed k) l = List.replicate (l.length - 1) false ++ [true] ∧
      runEnd cfg (.armed k) l = .fired cfg.cooldown := by
  induction l generalizing k with
  | nil => exact absurd rfl hne
  | cons v vs ih =>
      have hv : cfg.armThreshold < v := hh v (by simp)
      have hstep := stepAlert_armed_high cfg k v hd hv
      cases vs with
      | nil =>
          have hk : cfg.dwell ≤ k + 1 := by
            simp only [List.length_cons, List.length_nil] at hlen
            omega
          rw [if_pos hk] at hstep
          refine ⟨?_, ?_⟩
          · rw [runFlags_cons, hstep]
            simp [runFlags]
          · rw [runEnd_cons, hstep]
            rfl
      | cons w ws =>
          have hk : ¬ cfg.dwell ≤ k + 1 := by
            simp only [List.length_cons] at hlen
            omega
          rw [if_neg hk] at hstep
          have hlen2 : (w :: ws).length + (k + 1) = cfg.dwell := by
            simp only [List.length_cons] at hlen ⊢
            omega
          have ihr := ih (k + 1) (fun u hu => hh u (by simp [hu])) hlen2 (by simp)
          refine ⟨?_, ?_⟩
          · rw [runFlags_cons, hstep]
            show false :: runFlags cfg (.armed (k + 1)) (w :: ws) = _
            rw [ihr.1]
            simp [List.replicate_succ]
          · rw [runEnd_cons, hstep]
            exact ihr.2

set_option maxRecDepth 4000 in
/-- C2. General part: over a VS sequence consisting of a low stretch
(below the disarm threshold), a spike of exactly dwell + 1 windows
above the arm threshold, and a low tail, the evaluator emits exactly
one Alert, at the window where the crossing has persisted for the
dwell time. Scenario part: for VS = [0.3, 0.85, 0.9, 0.4, 0.2] with
arm threshold 0.7, disarm threshold 0.5, dwell 1 and cooldown 2,
exactly one Alert fires, at the third window (index 2), where the 0.85
crossing persists into the next window. -/
theorem c2_one_alert_per_spike :
    (∀ (cfg : AlertCfg) (pre spike post : List ℚ),
      cfg.disarmThreshold ≤ cfg.armThreshold →
      1 ≤ cfg.dwell →
      (∀ v ∈ pre, v < cfg.disarmThreshold) →
      (∀ v ∈ spike, cfg.armThreshold < v) →
      spike.length = cfg.dwell + 1 →
      (∀ v ∈ post, v < cfg.disarmThreshold) →
      runFlags cfg .quiet (pre ++ spike ++ post) =
        List.replicate (pre.length + cfg.dwell) false ++
          true :: List.replicate post.length false) ∧
    runFlags ⟨7/10, 1/2, 1, 2⟩ .quiet [3/10, 17/20, 9/10, 2/5, 1/5] =
      [false, false, true, false, false] := by
  constructor
  · intro cfg pre spike post hd hdw hpre hspike hlen hpost
    cases spike with
    | nil => simp at hlen
    | cons a mid =>
        have ha : cfg.armThreshold < a := hspike a (by simp)
        have hmidlen : mid.length = cfg.dwell := by
          simp only [List.length_cons] at hlen
          omega
        have hmidne : mid ≠ [] := by
          intro h
          rw [h] at hmidlen
          simp at hmidlen
          omega
        have hstepq : stepAlert cfg .quiet a = (.armed 0, false) := by
          unfold stepAlert
          rw [if_neg (by exact not_lt.mpr (le_of_lt (lt_of_le_of_lt hd ha)))]
          simp [ha]
        have harmed := runFlags_armed cfg mid 0 hd
          (fun u hu => hspike u (by simp [hu])) (by omega) hmidne
        have hspikeflags : runFlags cfg .quiet (a :: mid) =
            List.replicate cfg.dwell false ++ [true] := by
          rw [runFlags_cons, hstepq]
          show false :: runFlags cfg (.armed 0) mid = _
          rw [harmed.1]
          have h1 : 1 ≤ mid.length := by
            cases mid with
            | nil => exact absurd rfl hmidne
            | cons _ _ => simp
          have hde : cfg.dwell = (mid.length - 1) + 1 := by omega
          rw [hde, List.replicate_succ]
          rfl
        have hspikend : runEnd cfg .quiet (a :: mid) = .fired cfg.cooldown := by
          rw [runEnd_cons, hstepq]
          exact harmed.2
        rw [runFlags_append, runFlags_append, runEnd_append]
        rw [runFlags_low cfg _ pre hpre, runEnd_quiet_low cfg pre hpre]
        rw [hspikeflags, hspikend, runFlags_low cfg _ post hpost]
        rw [List.replicate_add]
        simp only [List.append_assoc, List.singleton_append]
  · norm_num [runFlags, stepAlert]

/-- Witness for the general part of C2, at the scenario data: the low
stretch [0.3], the spike [0.85, 0.9] and the tail [0.4, 0.2]. -/
theorem c2_one_alert_per_spike_witness :
    runFlags ⟨7/10, 1/2, 1, 2⟩ .quiet ([3/10] ++ [17/20, 9/10] ++ [2/5, 1/5]) =
      List.replicate (List.length [(3:ℚ)/10] + 1) false ++
        true :: List.replicate (List.length [(2:ℚ)/5, 1/5]) false :=
  c2_one_alert_per_spike.1 ⟨7/10, 1/2, 1, 2⟩ [3/10] [17/20, 9/10] [2/5, 1/5]
    (by norm_num) (by norm_num) (by norm_num) (by norm_num) (by norm_num)
    (by norm_num)

/-! ### Window Aggregator -/

/-- A mention as read by the Window Aggregator: the fields of the
`mention` row joined with its enrichment that the per-window statistics
aggregate over. -/
structure MentionRow where
  author : String
  source : String
  created_at : ℚ
  sentiment : ℚ
  metrics : List (String × Nat)
deriving DecidableEq, Repr

/-- Value of a named engagement metric of a mention (0 when the metric
is absent from the `metrics` mapping). -/
def metricValue (m : List (String × Nat)) (name : String) : Nat :=
  match m.find? (fun p => p.1 == name) with
  | some p => p.2
  | none => 0

/-- The total engagement of one mention: the sum of the configured
engagement metrics. -/
def engagementOf (ems : List String) (r : MentionRow) : ℚ :=
  (((ems.map (metricValue r.metrics)).sum : Nat) : ℚ)

/-- Modelled from the spec (Window Aggregator): the growth rate
`growth = (current - prior) / max(prior, 1)`, guarding the division
against a zero-mention prior window. -/
def growthRate (current priorCount : Nat) : ℚ :=
  ((current : ℚ) - (priorCount : ℚ)) / max (priorCount : ℚ) 1

/-- One `narrative_window_stats` row (`init.sql`), with the per-source
breakdown as a fractional share per platform tag. -/
@[ext]
structure WindowStats where
  window_start : ℚ
  window_end : ℚ
  mentions : Nat
  unique_authors : Nat
  avg_engagement : ℚ
  growth_rate : ℚ
  sentiment : ℚ
  sources : String → ℚ

/-- Membership of a mention in the half-open window [start, end). -/
def inWindow (ws we : ℚ) (r : MentionRow) : Bool :=
  decide (ws ≤ r.created_at) && decide (r.created_at < we)

/-- Modelled from the spec (Window Aggregator, not present in the
repository): statistics of one narrative over a closed window
[ws, we) — mention count, unique-author count, mean engagement, growth
rate against the prior window count, mean sentiment and per-source
share. A window with zero mentions produces a zero-valued row (in the
model, rational division by zero is zero, matching the
InsufficientData rule). -/
def aggregateWindow (ems : List String) (ws we : ℚ) (priorCount : Nat)
    (rows : List MentionRow) : WindowStats :=
  let cur := rows.filter (inWindow ws we)
  let cnt := cur.length
  { window_start := ws
    window_end := we
    mentions := cnt
    unique_authors := (cur.map (fun r => r.author)).dedup.length
    avg_engagement := (cur.map (engagementOf ems)).sum / (cnt : ℚ)
    growth_rate := growthRate cnt priorCount
    sentiment := (cur.map (fun r => r.sentiment)).sum / (cnt : ℚ)
    sources := fun s => ((cur.countP (fun r => r.source == s) : Nat) : ℚ) / (cnt : ℚ) }

/-- C3. The growth rate of every aggregated window equals
`(current - prior) / max(prior, 1)`; the denominator is strictly
positive (so the value is a well-defined rational, never a division by
zero), and a prior window with zero mentions yields exactly the
current count as growth. -/
theorem c3_growth_rate_well_defined (ems : List String) (ws we : ℚ)
    (priorCount : Nat) (rows : List MentionRow) :
    (aggregateWindow ems ws we priorCount rows).growth_rate =
        (((rows.filter (inWindow ws we)).length : ℚ) - (priorCount : ℚ)) /
          max (priorCount : ℚ) 1 ∧
      (0 : ℚ) < max (priorCount : ℚ) 1 ∧
      (aggregateWindow ems ws we 0 rows).growth_rate =
        ((rows.filter (inWindow ws we)).length : ℚ) := by
  refine ⟨rfl, lt_of_lt_of_le zero_lt_one (le_max_right _ 1), ?_⟩
  show growthRate (rows.filter (inWindow ws we)).length 0 = _
  unfold growthRate
  norm_num

/-- C4. Window aggregation is deterministic in the mention set: two
runs over the same closed window and the same mentions, however the
store enumerates them, produce identical `WindowStats`. -/
theorem c4_aggregation_deterministic (ems : List String) (ws we : ℚ)
    (priorCount : Nat) (rows₁ rows₂ : List MentionRow)
    (h : rows₁.Perm rows₂) :
    aggregateWindow ems ws we priorCount rows₁ =
      aggregateWindow ems ws we priorCount rows₂ := by
  have hf : (rows₁.filter (inWindow ws we)).Perm (rows₂.filter (inWindow ws we)) :=
    h.filter _
  unfold aggregateWindow
  refine WindowStats.ext rfl rfl ?_ ?_ ?_ ?_ ?_ ?_ <;> dsimp only
  · exact hf.length_eq
  · exact ((hf.map _).dedup).length_eq
  · rw [(hf.map _).sum_eq, hf.length_eq]
  · rw [hf.length_eq]
  · rw [(hf.map _).sum_eq, hf.length_eq]
  · funext s
    rw [hf.countP_eq, hf.length_eq]

def egRow1 : MentionRow :=
  { author := "a", source := "twitter", created_at := 1, sentiment := 1/2,
    metrics := [("likes", 3)] }

def egRow2 : MentionRow :=
  { author := "b", source := "reddit", created_at := 2, sentiment := -1/2,
    metrics := [("likes", 1)] }

theorem c4_aggregation_deterministic_witness :
    aggregateWindow ["likes"] 0 10 0 [egRow1, egRow2] =
      aggregateWindow ["likes"] 0 10 0 [egRow2, egRow1] :=
  c4_aggregation_deterministic ["likes"] 0 10 0 [egRow1, egRow2] [egRow2, egRow1]
    (List.Perm.swap egRow2 egRow1 [])

/-! ### Scoring Engine -/

/-- The factor inputs of one (narrative, window) scoring computation,
each already normalized by the rolling reference distribution. -/
structure Factors where
  volume : ℚ
  growth : ℚ
  engagement : ℚ
  influencer : ℚ
  novelty : ℚ
  recency : ℚ
  toxicity : ℚ
deriving DecidableEq, Repr

/-- The configurable weight set of the Virality Score. -/
structure VSWeights where
  wM : ℚ
  wG : ℚ
  wE : ℚ
  wI : ℚ
  wN : ℚ
  wR : ℚ
  wTox : ℚ
deriving DecidableEq, Repr

/-- The documented default weight configuration,
`VS = 0.25 M + 0.25 G + 0.15 E + 0.15 I + 0.10 N + 0.10 R - 0.10 tox`. -/
def defaultVSWeights : VSWeights :=
  { wM := 0.25, wG := 0.25, wE := 0.15, wI := 0.15, wN := 0.10, wR := 0.10,
    wTox := 0.10 }

/-- Clamp a rational into the unit interval. -/
def clamp01 (x : ℚ) : ℚ := max 0 (min 1 x)

/-- Modelled from the spec (Scoring Engine, not present in the
repository): the Virality Score — the weighted sum of the normalized
factors minus the weighted toxicity, clamped to [0, 1] after
weighting. -/
def computeVS (w : VSWeights) (f : Factors) : ℚ :=
  clamp01 (w.wM * f.volume + w.wG * f.growth + w.wE * f.engagement +
    w.wI * f.influencer + w.wN * f.novelty + w.wR * f.recency -
    w.wTox * f.toxicity)

/-- C5. Every returned Virality Score lies in [0, 1] for every weight
configuration and every factor input, and under the default weight
configuration the score is exactly the documented formula
`0.25 M + 0.25 G + 0.15 E + 0.15 I + 0.10 N + 0.10 R - 0.10 tox`
clamped to [0, 1] after weighting. -/
theorem c5_vs_formula_clamped :
    (∀ (w : VSWeights) (f : Factors),
      0 ≤ computeVS w f ∧ computeVS w f ≤ 1) ∧
    (∀ f : Factors,
      computeVS defaultVSWeights f =
        clamp01 (0.25 * f.volume + 0.25 * f.growth + 0.15 * f.engagement +
          0.15 * f.influencer + 0.10 * f.novelty + 0.10 * f.recency -
          0.10 * f.toxicity)) := by
  refine ⟨fun w f => ⟨le_max_left 0 _, ?_⟩, fun f => rfl⟩
  exact max_le zero_le_one (min_le_left 1 _)

/-! ### Cycle atomicity -/

/-- A mention awaiting embedding at the start of a processing cycle. -/
structure PendingMention where
  id : Nat
  author : String
  text : String
deriving DecidableEq, Repr

/-- Modelled from the spec (Error Handling Design): the per-cycle
error raised when the embedding provider is unavailable. -/
inductive CycleError where
  | embeddingUnavailable : CycleError
deriving DecidableEq, Repr

/-- Embed every pending mention of the cycle through the provider;
the whole batch fails when any single embedding is unavailable. -/
def embedAll (provider : Nat → Option Vec) :
    List PendingMention → Option (List EnrichedMention)
  | [] => some []
  | p :: ps =>
    match provider p.id, embedAll provider ps with
    | some e, some ms => some ({ id := p.id, author := p.author, embedding := e } :: ms)
    | _, _ => none

/-- Modelled from the spec (Concurrency and Resource Model, not
present in the repository): one processing cycle — embed the whole
batch, then assign and update centroids; an embedding failure aborts
the cycle before any centroid is touched. -/
def runCycle (cfg : ClusterCfg) (provider : Nat → Option Vec)
    (narrs : List Narrative) (pending : List PendingMention) :
    Except CycleError (List Narrative) :=
  match embedAll provider pending with
  | none => .error .embeddingUnavailable
  | some ms => .ok (runClusterCycle cfg narrs ms)

/-- The narrative state the store holds after a cycle: the cycle
result on success, the untouched previous state on failure. -/
def commitCycle (narrs : List Narrative)
    (r : Except CycleError (List Narrative)) : List Narrative :=
  match r with
  | .ok s => s
  | .error _ => narrs

theorem embedAll_none (provider : Nat → Option Vec)
    (pending : List PendingMention) (p : PendingMention)
    (hp : p ∈ pending) (hnone : provider p.id = none) :
    embedAll provider pending = none := by
  induction pending with
  | nil => cases hp
  | cons q qs ih =>
      rcases List.mem_cons.mp hp with h | h
      · subst h
        cases hq : embedAll provider qs <;> simp [embedAll, hnone, hq]
      · cases hq : provider q.id <;> simp [embedAll, hq, ih h]

/-- C6. A processing cycle is atomic in the narrative centroid state:
when the embedding provider fails for any mention of the batch, the
cycle reports the error and the committed narrative state equals the
pre-cycle state (no partial centroid update); when the whole batch
embeds, the cycle assigns and updates over all of it. -/
theorem c6_cycle_atomic (cfg : ClusterCfg) (provider : Nat → Option Vec)
    (narrs : List Narrative) (pending : List PendingMention) :
    ((∃ p ∈ pending, provider p.id = none) →
      runCycle cfg provider narrs pending = .error .embeddingUnavailable ∧
      commitCycle narrs (runCycle cfg provider narrs pending) = narrs) ∧
    (∀ ms, embedAll provider pending = some ms →
      runCycle cfg provider narrs pending = .ok (runClusterCycle cfg narrs ms)) := by
  constructor
  · rintro ⟨p, hp, hnone⟩
    have he := embedAll_none provider pending p hp hnone
    unfold runCycle
    rw [he]
    exact ⟨rfl, rfl⟩
  · intro ms hms
    unfold runCycle
    rw [hms]

def egPending : PendingMention := { id := 5, author := "a", text := "t" }

theorem c6_cycle_atomic_witness :
    commitCycle [egNarr]
        (runCycle egCfg (fun _ => none) [egNarr] [egPending]) = [egNarr] :=
  ((c6_cycle_atomic egCfg (fun _ => none) [egNarr] [egPending]).1
    ⟨egPending, by simp, rfl⟩).2

/-! ### Mention Normalizer -/

/-- A raw connector record (External Interfaces section of the spec):
the required fields `source`, `source_id` and `created_at` may be
absent. -/
structure RawRecord where
  source : Option String
  source_id : Option String
  author : String
  text : String
  url : String
  created_at : Option ℚ
  metrics : List (String × Nat)
  lang : Option String
  entities : List (String × List String)
deriving DecidableEq, Repr

/-- A normalized mention (`mention` table of `init.sql`): the required
fields are present. -/
structure Mention where
  source : String
  source_id : String
  author : String
  text : String
  url : String
  created_at : ℚ
  metrics : List (String × Nat)
  lang : Option String
  entities : List (String × List String)
deriving DecidableEq, Repr

/-- Modelled from the spec (Error Handling Design): the per-record
error of the Mention Normalizer. -/
inductive NormError where
  | validationError : NormError
deriving DecidableEq, Repr

/-- Modelled from the spec: a record fails validation exactly when it
lacks one of the required fields `source`, `source_id`, `created_at`. -/
def validateRecord (r : RawRecord) : Except NormError Mention :=
  match r.source, r.source_id, r.created_at with
  | some s, some sid, some t =>
      .ok { source := s, source_id := sid, author := r.author, text := r.text,
            url := r.url, created_at := t, metrics := r.metrics,
            lang := r.lang, entities := r.entities }
  | _, _, _ => .error .validationError

/-- The dedup key of a mention, the `UNIQUE (source, source_id)`
constraint of the `mention` table. -/
def mentionKey (m : Mention) : String × String := (m.source, m.source_id)

/-- Modelled from the spec: the configurable language allow-list
filter; a record with an unknown language is kept. -/
def langOk (allow : List String) (m : Mention) : Bool :=
  match m.lang with
  | some l => allow.contains l
  | none => true

/-- Modelled from the spec (Mention Normalizer, not present in the
repository): fold over the batch, dropping and counting malformed
records, skipping records whose dedup key was already seen, and
filtering non-target languages; returns the kept mentions and the
count of records dropped by validation. -/
def normalizeGo (allow : List String) (seen : List (String × String)) :
    List RawRecord → List Mention × Nat
  | [] => ([], 0)
  | r :: rs =>
    match validateRecord r with
    | .error _ =>
        let rest := normalizeGo allow seen rs
        (rest.1, rest.2 + 1)
    | .ok m =>
        if mentionKey m ∈ seen then normalizeGo allow seen rs
        else
          let rest := normalizeGo allow (mentionKey m :: seen) rs
          if langOk allow m then (m :: rest.1, rest.2) else rest

/-- The Mention Normalizer over a whole batch. -/
def normalizeBatch (allow : List String) (batch : List RawRecord) :
    List Mention × Nat :=
  normalizeGo allow [] batch

/-- The stored mention set, and the insert that respects the
`UNIQUE (source, source_id)` constraint of `init.sql` (a conflicting
insert is a no-op). -/
def insertMention (s : List Mention) (m : Mention) : List Mention :=
  if s.any (fun x => mentionKey x == mentionKey m) then s else m :: s

theorem normalizeGo_key_fresh (allow : List String) (rs : List RawRecord) :
    ∀ seen : List (String × String),
      (∀ m ∈ (normalizeGo allow seen rs).1, mentionKey m ∉ seen) ∧
      (normalizeGo allow seen rs).1.Pairwise
        (fun a b => mentionKey a ≠ mentionKey b) := by
  induction rs with
  | nil => intro seen; simp [normalizeGo]
  | cons r rs ih =>
      intro seen
      cases hv : validateRecord r with
      | error e =>
          simp only [normalizeGo, hv]
          exact ih seen
      | ok m =>
          by_cases hs : mentionKey m ∈ seen
          · simp only [normalizeGo, hv, if_pos hs]
            exact ih seen
          · have ihm := ih (mentionKey m :: seen)
            by_cases hl : langOk allow m
            · simp only [normalizeGo, hv, if_neg hs, hl, if_pos]
              constructor
              · intro x hx
                rcases List.mem_cons.mp hx with h | h
                · subst h; exact hs
                · intro hxs
                  exact ihm.1 x h (List.mem_cons_of_mem _ hxs)
              · refine List.Pairwise.cons ?_ ihm.2
                intro x hx
                intro hkey
                exact ihm.1 x hx (by rw [← hkey]; exact List.mem_cons_self _ _)
            · simp only [normalizeGo, hv, if_neg hs, hl, if_neg]
              refine ⟨?_, ihm.2⟩
              intro x hx hxs
              exact ihm.1 x hx (List.mem_cons_of_mem _ hxs)

/-- C7. The output of the Mention Normalizer contains no two mentions
sharing a (source, source_id) dedup key, and the stored mention set
keeps (source, source_id) unique under insertion. -/
theorem c7_dedup_key_unique :
    (∀ (allow : List String) (batch : List RawRecord),
      (normalizeBatch allow batch).1.Pairwise
        (fun a b => mentionKey a ≠ mentionKey b)) ∧
    (∀ (s : List Mention) (m : Mention),
      s.Pairwise (fun a b => mentionKey a ≠ mentionKey b) →
      (insertMention s m).Pairwise (fun a b => mentionKey a ≠ mentionKey b)) := by
  constructor
  · intro allow batch
    exact (normalizeGo_key_fresh allow batch []).2
  · intro s m hs
    unfold insertMention
    split
    · exact hs
    · refine List.Pairwise.cons ?_ hs
      intro x hx
      rename_i hany
      rw [List.any_eq_true] at hany
      push_neg at hany
      intro hkey
      exact hany x hx (by rw [beq_iff_eq]; exact hkey.symm)

def egMentionRow : Mention :=
  { source := "twitter", source_id := "1", author := "a", text := "t",
    url := "u", created_at := 1, metrics := [], lang := some "en",
    entities := [] }

theorem c7_dedup_key_unique_witness :
    (insertMention [] egMentionRow).Pairwise
      (fun a b => mentionKey a ≠ mentionKey b) :=
  c7_dedup_key_unique.2 [] egMentionRow (List.Pairwise.nil)

theorem normalizeGo_drop (allow : List String) (b : RawRecord)
    (hb : validateRecord b = .error .validationError) :
    ∀ (pre post : List RawRecord) (seen : List (String × String)),
      normalizeGo allow seen (pre ++ b :: post) =
        ((normalizeGo allow seen (pre ++ post)).1,
          (normalizeGo allow seen (pre ++ post)).2 + 1) := by
  intro pre
  induction pre with
  | nil =>
      intro post seen
      simp only [List.nil_append, normalizeGo, hb]
  | cons r rs ih =>
      intro post seen
      cases hv : validateRecord r with
      | error e =>
          simp only [List.cons_append, normalizeGo, hv, List.append_eq,
            ih post seen]
      | ok m =>
          by_cases hs : mentionKey m ∈ seen
          · simp only [List.cons_append, normalizeGo, hv, if_pos hs,
              List.append_eq, ih post seen]
          · by_cases hl : langOk allow m
            · simp only [List.cons_append, normalizeGo, hv, if_neg hs, hl,
                if_pos, List.append_eq, ih post (mentionKey m :: seen)]
            · simp only [List.cons_append, normalizeGo, hv, if_neg hs, hl,
                if_neg, List.append_eq, ih post (mentionKey m :: seen)]
              simp

/-- C9. A record fails validation with ValidationError exactly when it
lacks one of the required fields `source`, `source_id`, `created_at`;
such a record is dropped and counted while the rest of the batch is
still processed exactly as if the malformed record were absent. -/
theorem c9_validation_drops_locally :
    (∀ r : RawRecord,
      validateRecord r = .error .validationError ↔
        (r.source = none ∨ r.source_id = none ∨ r.created_at = none)) ∧
    (∀ (allow : List String) (pre post : List RawRecord) (b : RawRecord),
      validateRecord b = .error .validationError →
      normalizeBatch allow (pre ++ b :: post) =
        ((normalizeBatch allow (pre ++ post)).1,
          (normalizeBatch allow (pre ++ post)).2 + 1)) := by
  constructor
  · intro r
    rcases r with ⟨s, sid, author, text, url, created, metrics, lang, entities⟩
    cases s <;> cases sid <;> cases created <;> simp [validateRecord]
  · intro allow pre post b hb
    exact normalizeGo_drop allow b hb pre post []

def egBadRaw : RawRecord :=
  { source := none, source_id := some "1", author := "a", text := "t",
    url := "u", created_at := some 1, metrics := [], lang := some "en",
    entities := [] }

theorem c9_validation_drops_locally_witness :
    validateRecord egBadRaw = .error .validationError ∧
    normalizeBatch [] ([] ++ egBadRaw :: []) =
      ((normalizeBatch [] ([] ++ [])).1, (normalizeBatch [] ([] ++ [])).2 + 1) :=
  ⟨(c9_validation_drops_locally.1 egBadRaw).mpr (Or.inl rfl),
    c9_validation_drops_locally.2 [] [] [] egBadRaw
      ((c9_validation_drops_locally.1 egBadRaw).mpr (Or.inl rfl))⟩

/-! ### Narrative and Alert store operations -/

/-- An alert row (`alert` table of `init.sql`). -/
structure Alert where
  id : Nat
  narrative_id : Nat
  alert_type : String
  threshold_config : String
  triggered_at : ℚ
  acknowledged_at : Option ℚ
  acknowledged_by : Option String
deriving DecidableEq, Repr

/-- The durable store of narratives and alerts. -/
structure Store where
  narratives : List Narrative
  alerts : List Alert
deriving DecidableEq, Repr

/-- Modelled from the spec (Data Model lifecycle and ownership, not
present in the repository): the operations the system performs on
narrative and alert rows — create a narrative, update centroid,
last_seen and keywords of a narrative, create an alert, and set the
acknowledgment fields of an alert. No delete operation exists. -/
inductive SysOp where
  | createNarrative : Narrative → SysOp
  | updateNarrative : Nat → Vec → ℚ → List String → SysOp
  | createAlert : Alert → SysOp
  | acknowledgeAlert : Nat → ℚ → String → SysOp

/-- Apply one store operation. -/
def applyOp (s : Store) : SysOp → Store
  | .createNarrative n => { s with narratives := s.narratives ++ [n] }
  | .updateNarrative nid c t kw =>
      { s with narratives := s.narratives.map (fun n =>
          if n.id = nid then
            { n with centroid := c, last_seen := t, keywords := kw }
          else n) }
  | .createAlert a => { s with alerts := s.alerts ++ [a] }
  | .acknowledgeAlert aid ts actor =>
      { s with alerts := s.alerts.map (fun a =>
          if a.id = aid then
            { a with acknowledged_at := some ts, acknowledged_by := some actor }
          else a) }

/-- C8. No operation of the system removes a Narrative row or an
Alert row: every narrative id present before an operation is present
after it, and every alert row survives every operation with its
identity and trigger data intact, alerts being mutated only in their
acknowledgment fields. -/
theorem c8_no_hard_delete (s : Store) (op : SysOp) :
    (∀ n ∈ s.narratives, ∃ n2 ∈ (applyOp s op).narratives, n2.id = n.id) ∧
    (∀ a ∈ s.alerts, ∃ a2 ∈ (applyOp s op).alerts,
      a2.id = a.id ∧ a2.narrative_id = a.narrative_id ∧
      a2.alert_type = a.alert_type ∧
      a2.threshold_config = a.threshold_config ∧
      a2.triggered_at = a.triggered_at) := by
  cases op with
  | createNarrative n =>
      refine ⟨fun x hx => ⟨x, ?_, rfl⟩, fun a ha => ⟨a, ha, rfl, rfl, rfl, rfl, rfl⟩⟩
      exact List.mem_append_left _ hx
  | updateNarrative nid c t kw =>
      refine ⟨fun x hx => ⟨_, List.mem_map_of_mem _ hx, ?_⟩,
        fun a ha => ⟨a, ha, rfl, rfl, rfl, rfl, rfl⟩⟩
      by_cases h : x.id = nid <;> simp [h]
  | createAlert a =>
      refine ⟨fun x hx => ⟨x, hx, rfl⟩, fun a ha => ⟨a, ?_, rfl, rfl, rfl, rfl, rfl⟩⟩
      exact List.mem_append_left _ ha
  | acknowledgeAlert aid ts actor =>
      refine ⟨fun x hx => ⟨x, hx, rfl⟩,
        fun a ha => ⟨_, List.mem_map_of_mem _ ha, ?_⟩⟩
      by_cases h : a.id = aid <;> simp [h]

def egAlert : Alert :=
  { id := 1, narrative_id := 1, alert_type := "spike",
    threshold_config := "vs-0.7", triggered_at := 3,
    acknowledged_at := none, acknowledged_by := none }

theorem c8_no_hard_delete_witness :
    ∃ a2 ∈ (applyOp ⟨[egNarr], [egAlert]⟩
        (SysOp.acknowledgeAlert 1 5 "ops")).alerts,
      a2.id = egAlert.id ∧ a2.narrative_id = egAlert.narrative_id ∧
      a2.alert_type = egAlert.alert_type ∧
      a2.threshold_config = egAlert.threshold_config ∧
      a2.triggered_at = egAlert.triggered_at :=
  (c8_no_hard_delete ⟨[egNarr], [egAlert]⟩
    (SysOp.acknowledgeAlert 1 5 "ops")).2 egAlert (List.mem_singleton.mpr rfl)

/-! ### Dashboard NarrativeCard (`dashboard/src/app/page.tsx`) -/

/-- The `scores` object of a narrative record consumed by the
dashboard; either score may be absent (undefined). -/
structure Scores where
  VS : Option ℚ
  LRS : Option ℚ
deriving DecidableEq, Repr

/-- A narrative record as consumed by the NarrativeCard component of
`page.tsx`; the `scores` object itself may be absent. -/
structure NarrativeView where
  id : Nat
  label : String
  scores : Option Scores
deriving DecidableEq, Repr

/-- Model of the JavaScript call `x.toFixed(2)` on a rational: sign,
integer part, and two fractional digits, rounding half away from
zero. -/
def toFixed2 (x : ℚ) : String :=
  let sign := if x < 0 then "-" else ""
  let n : Nat := (Int.floor (|x| * 100 + 1/2)).toNat
  let ip := n / 100
  let fp := n % 100
  sign ++ toString ip ++ "." ++ (if fp < 10 then "0" else "") ++ toString fp

/-- A rendered JSX child: React renders `false`, `undefined` and
`null` as nothing, renders a bare number as its decimal text, and
renders an element (here: the styled score badge with its inner
text). -/
inductive Rendered where
  | nothing : Rendered
  | text : String → Rendered
  | badge : String → Rendered
deriving DecidableEq, Repr

/-- Embedding of `page.tsx` line 181,
`narrative.scores?.LRS && <span ...>LRS: {narrative.scores.LRS.toFixed(2)}</span>`:
the `&&` expression evaluates to its left operand when that operand is
falsy, so an undefined chain renders nothing while the number 0 is
rendered by React as the bare text `0`; a truthy LRS renders the
badge. -/
def lrsSlot (nv : NarrativeView) : Rendered :=
  match nv.scores.bind (fun s => s.LRS) with
  | none => .nothing
  | some x => if x = 0 then .text "0" else .badge ("LRS: " ++ toFixed2 x)

/-- Embedding of `page.tsx` line 179,
`narrative.scores?.VS?.toFixed(2) || 'N/A'`: an undefined chain falls
back to the text N/A; a present VS renders its toFixed(2) string,
which is never empty and hence never falsy. -/
def vsText (nv : NarrativeView) : String :=
  match nv.scores.bind (fun s => s.VS) with
  | none => "N/A"
  | some x => toFixed2 x

/-- C10 counterexample: a narrative whose LRS is exactly 0 is not
rendered identically to one whose LRS is absent — the zero LRS leaves
a bare `0` text node where the `&&` guard short-circuits, while the
absent LRS renders nothing, so the two cases are visually
distinguishable, contrary to the claim. Neither shows the badge. -/
theorem c10_lrs_zero_counterexample :
    lrsSlot { id := 1, label := "n",
              scores := some { VS := some (1/2), LRS := some 0 } } =
        Rendered.text "0" ∧
      lrsSlot { id := 1, label := "n",
                scores := some { VS := some (1/2), LRS := none } } =
        Rendered.nothing ∧
      Rendered.text "0" ≠ Rendered.nothing := by
  refine ⟨rfl, rfl, by simp⟩

/-- C10 (amended). The LRS badge is displayed exactly when
`narrative.scores?.LRS` is truthy (present and nonzero); an LRS of
exactly 0 shows no badge but leaves a bare `0` text node (so zero and
absent LRS both lack the badge yet render differently), and an absent
VS renders as the text N/A. -/
theorem c10_lrs_badge_truthiness (nv : NarrativeView) :
    ((∃ s, lrsSlot nv = Rendered.badge s) ↔
      (∃ x, nv.scores.bind (fun s => s.LRS) = some x ∧ x ≠ 0)) ∧
    (nv.scores.bind (fun s => s.LRS) = some 0 →
      lrsSlot nv = Rendered.text "0") ∧
    (nv.scores.bind (fun s => s.LRS) = none → lrsSlot nv = Rendered.nothing) ∧
    (nv.scores.bind (fun s => s.VS) = none → vsText nv = "N/A") := by
  refine ⟨⟨?_, ?_⟩, ?_, ?_, ?_⟩
  · rintro ⟨s, hs⟩
    unfold lrsSlot at hs
    cases h : nv.scores.bind (fun s => s.LRS) with
    | none => rw [h] at hs; simp at hs
    | some x =>
        rw [h] at hs
        by_cases hx : x = 0
        · simp [hx] at hs
        · exact ⟨x, rfl, hx⟩
  · rintro ⟨x, hx, hx0⟩
    unfold lrsSlot
    rw [hx]
    refine ⟨"LRS: " ++ toFixed2 x, ?_⟩
    simp [hx0]
  · intro h
    unfold lrsSlot
    rw [h]
    simp
  · intro h
    unfold lrsSlot
    rw [h]
  · intro h
    unfold vsText
    rw [h]

def egView : NarrativeView :=
  { id := 2, label := "m", scores := some { VS := none, LRS := none } }

theorem c10_lrs_badge_truthiness_witness :
    lrsSlot egView = Rendered.nothing ∧ vsText egView = "N/A" :=
  ⟨(c10_lrs_badge_truthiness egView).2.2.1 rfl,
    (c10_lrs_badge_truthiness egView).2.2.2 rfl⟩

end Dym
